import Mathlib

/-!
Shallow embedding of the js-report-card source-acquisition and analysis core.

Sources embedded (TypeScript):
- packages/core/src/download/downloader.ts       (ProjectDownloader dispatcher)
- packages/core/src/download/git-downloader.ts   (GitDownloader; the current
  revision, the one the package's own test suite asserts, validates the URL
  scheme and builds the clone URL via addAuthToUrl on a copy; an older
  revision of the same file, also present in the snapshot, mutates
  source.url and is embedded separately as GitDownloaderLegacy)
- packages/core/src/download/zip-downloader.ts   (ZipDownloader)
- packages/core/src/download/npm-downloader.ts   (NpmDownloader)
- packages/core/src/download/local-downloader.ts (LocalDownloader)
- packages/core/src/errors.ts                    (DownloaderError, AnalyzerError)
- packages/core/src/types.ts                     (data model)
- the cache module (ICache / CacheEntry / MemoryCache)
- the analyzer manager (AnalyzerManager.runAnalysis / runAnalyzers /
  isCacheValid / cleanup)

Modelling conventions:
- JavaScript thrown values are the inductive `Thrown`; `Except Thrown` stands
  for a possibly-throwing async function.
- Mutable JS objects passed by reference are modelled by returning the
  descriptor's state after the call next to the result.
- Filesystem / network / process effects are recorded in an explicit trace
  (`List FsEffect`); the outcome of each external step is supplied by an
  environment record, one field per suspension point of the source function.
- `Date.now()` instants are supplied as explicit parameters.
- JS string truthiness (`undefined` and `""` are falsy) is `strTruthy` over
  `Option String`.
-/

namespace JsReportCard

/-- A value thrown by JS code: a typed `DownloaderError` (message, code,
sourceType, optional cause), a plain `Error` (any other Error subclass,
e.g. a raw platform exception), or a non-Error value (string, number, ...)
represented by an opaque tag. -/
inductive Thrown where
  | derr (message code sourceType : String) (cause : Option Thrown)
  | err (message : String)
  | nonErr (value : String)
deriving Repr

/-- `v instanceof Error` for a thrown value. -/
def Thrown.isErrorInstance : Thrown → Bool
  | .derr _ _ _ _ => true
  | .err _ => true
  | .nonErr _ => false

/-- `v instanceof DownloaderError`. -/
def Thrown.isDownloaderError : Thrown → Bool
  | .derr _ _ _ _ => true
  | _ => false

/-- `(v as Error).message`: reading `.message` off a non-Error value yields
`undefined`, which stringifies as "undefined" in a template literal. -/
def Thrown.message : Thrown → String
  | .derr m _ _ _ => m
  | .err m => m
  | .nonErr _ => "undefined"

/-- The `code` carried by a thrown value when it is a `DownloaderError`. -/
def Thrown.errCode : Thrown → Option String
  | .derr _ c _ _ => some c
  | _ => none

/-- JS truthiness of an optional string: `undefined` and `""` are falsy. -/
def strTruthy : Option String → Bool
  | none => false
  | some s => s ≠ ""

/-! ## WHATWG URL (the fragment the downloaders exercise)

Models `new URL(u)` for hierarchical `scheme://[user[:pass]@]host[:port]/path`
inputs and its `toString()` serialization.  A string with no valid
`scheme://` head (e.g. `"invalid-url"`, or the scp-style
`"git@github.com:user/repo.git"` whose scheme position holds `@` and `.`)
fails to parse, which models the constructor throwing. -/

structure Url where
  scheme : String
  username : String
  password : String
  host : String
  port : String
  path : String
deriving Repr, DecidableEq

/-- Characters allowed after the first character of a URL scheme. -/
def isSchemeChar (c : Char) : Bool :=
  c.isAlphanum || c = '+' || c = '-' || c = '.'

/-- A valid URL scheme: a letter followed by letters, digits, `+`, `-`, `.`. -/
def validScheme : List Char → Bool
  | [] => false
  | c :: rest => c.isAlpha && rest.all isSchemeChar

/-- Drop the pattern `pat` off the front of `s`, if it is there.  (All the
string scanning below is written over `List Char` with structural
recursion so that concrete inputs reduce inside the kernel.) -/
def dropPat : List Char → List Char → Option (List Char)
  | [], s => some s
  | _, [] => none
  | p :: ps, c :: cs => if p = c then dropPat ps cs else none

/-- Split at the first occurrence of the pattern, if any. -/
def findSplit (pat : List Char) : List Char → Option (List Char × List Char)
  | [] =>
    match dropPat pat [] with
    | some r => some ([], r)
    | none => none
  | c :: cs =>
    match dropPat pat (c :: cs) with
    | some r => some ([], r)
    | none =>
      match findSplit pat cs with
      | some (a, b) => some (c :: a, b)
      | none => none

/-- Split at the last occurrence of the character, if any (WHATWG splits
the authority at the last `@`). -/
def lastSplit (ch : Char) : List Char → Option (List Char × List Char)
  | [] => none
  | c :: cs =>
    match lastSplit ch cs with
    | some (a, b) => some (c :: a, b)
    | none => if c = ch then some ([], cs) else none

/-- `new URL(s)`: parse a hierarchical URL, `none` models the constructor
throwing `TypeError`. -/
def parseUrl (s : String) : Option Url :=
  match findSplit "://".toList s.toList with
  | none => none
  | some (scheme, rest) =>
    if validScheme scheme then
      let (authority, path) :=
        match findSplit ['/'] rest with
        | some (a, p) => (a, '/' :: p)
        | none => (rest, [])
      let (userinfo, hostport) :=
        match lastSplit '@' authority with
        | some (ui, hp) => (some ui, hp)
        | none => (none, authority)
      let (username, password) :=
        match userinfo with
        | none => ([], [])
        | some ui =>
          match findSplit [':'] ui with
          | some (u, p) => (u, p)
          | none => (ui, [])
      let (host, port) :=
        match findSplit [':'] hostport with
        | some (h, p) => (h, p)
        | none => (hostport, [])
      if host.isEmpty then none
      else some ⟨scheme.asString, username.asString, password.asString,
                 host.asString, port.asString, path.asString⟩
    else none

/-- JS `String#trim()` (kernel-reducible replacement for `String.trim`). -/
def trimStr (s : String) : String :=
  let ws : Char → Bool := fun c => c = ' ' || c = '\n' || c = '\t' || c = '\r'
  (((s.toList.dropWhile ws).reverse.dropWhile ws).reverse).asString

/-- `URL#toString()` for the fragment modelled by `parseUrl`. -/
def Url.serialize (u : Url) : String :=
  u.scheme ++ "://"
    ++ (if u.username ≠ "" || u.password ≠ "" then
          u.username ++ (if u.password ≠ "" then ":" ++ u.password else "") ++ "@"
        else "")
    ++ u.host
    ++ (if u.port ≠ "" then ":" ++ u.port else "")
    ++ u.path

/-! ## Data model (types.ts) -/

/-- `auth: { username?: string; token?: string }`. -/
structure AuthInfo where
  username : Option String := none
  token : Option String := none
deriving Repr, DecidableEq

/-- `DownloadResult.metadata`: the cache fingerprint attached to a workspace
(`version` is the cache key; `additionalInfo` is an opaque record, modelled
as an association list of opaque strings). -/
structure Metadata where
  version : String
  type : String
  additionalInfo : Option (List (String × String)) := none
deriving Repr, DecidableEq

/-- `DownloadResult`: the workspace path plus optional fingerprint metadata.
The `cleanup` closure always removes the backend's target directory; it is
kept out of the record (a function field would block decidable equality) and
its behaviour is captured by the effect traces below. -/
structure DownloadResult where
  path : String
  metadata : Option Metadata := none
deriving Repr, DecidableEq

/-- `GitProjectSource`. -/
structure GitProjectSource where
  type : String := "git"
  url : String
  ref : Option String := none
  depth : Option Nat := none
  auth : Option AuthInfo := none
  cacheEnabled : Option Bool := none
deriving Repr, DecidableEq

/-- `ZipProjectSource`. -/
structure ZipProjectSource where
  type : String := "zip"
  url : String
  auth : Option AuthInfo := none
  cacheEnabled : Option Bool := none
deriving Repr, DecidableEq

/-- `NpmProjectSource`. -/
structure NpmProjectSource where
  type : String := "npm"
  packageName : String
  version : Option String := none
  cacheEnabled : Option Bool := none
deriving Repr, DecidableEq

/-- `LocalProjectSource`. -/
structure LocalProjectSource where
  type : String := "local"
  path : String
  cacheEnabled : Option Bool := none
deriving Repr, DecidableEq

/-! ## Effect traces -/

/-- One observable external effect of a backend: filesystem, network or
process-exec step, or a `console.error` log line. -/
inductive FsEffect where
  | gitClone (url targetDir : String) (depth : Nat)
  | gitCheckout (dir ref : String)
  | rmDir (path : String)
  | rmFile (path : String)
  | logError (msg : String)
  | copyDir (src dst : String)
  | accessPath (path : String)
  | mkDir (path : String)
  | httpFetch (url : String) (authHeader : Option String)
  | saveStream (path : String)
  | extractArchive (zipPath dir : String)
  | runCmd (cmd : String)
deriving Repr, DecidableEq

/-- Outcome of one backend `download` call: the result (or thrown value), the
caller's descriptor as it stands after the call (JS objects are mutable, so
a backend could have written to it), and the trace of external effects. -/
structure BackendOutcome (σ : Type) where
  result : Except Thrown DownloadResult
  source : σ
  trace : List FsEffect
deriving Repr

/-! ## GitDownloader (current revision: URL validation, copy-based auth) -/

namespace GitDownloader

/-- `isValidGitUrl`: `new URL(url)` must succeed and the protocol must be
`https:`, `git:` or `ssh:`. -/
def isValidGitUrl (url : String) : Bool :=
  match parseUrl url with
  | some parsed => parsed.scheme = "https" || parsed.scheme = "git" || parsed.scheme = "ssh"
  | none => false

/-- `addAuthToUrl`: re-parse the URL, embed the credentials on the parsed
copy (`username` + `token` as userinfo, a lone `token` as the username) and
serialize; an unparseable URL throws an `INVALID_SOURCE` `DownloaderError`. -/
def addAuthToUrl (url : String) (auth : AuthInfo) : Except Thrown String :=
  match parseUrl url with
  | some parsed =>
    let parsed :=
      if strTruthy auth.username && strTruthy auth.token then
        { parsed with username := auth.username.getD "", password := auth.token.getD "" }
      else if strTruthy auth.token then
        { parsed with username := auth.token.getD "" }
      else parsed
    .ok parsed.serialize
  | none =>
    .error (.derr "Invalid Git URL" "INVALID_SOURCE" "git" none)

/-- Environment of one `GitDownloader.download` call: `tmpdir()`, the fresh
`uuidv4()`, and the outcome of each suspension point (`git.clone`,
`checkout`, the catch-block `rm`). -/
structure Env where
  tmp : String := "/tmp"
  uuid : String := "u1"
  cloneResult : Except Thrown Unit := .ok ()
  checkoutResult : Except Thrown Unit := .ok ()
  rmOk : Bool := true
deriving Repr

/-- The target directory `join(tmpdir(), 'js-report-card', uuidv4())`. -/
def Env.targetDir (env : Env) : String :=
  env.tmp ++ "/js-report-card/" ++ env.uuid

/-- The catch block: attempt `rm(targetDir, {recursive, force})`, log (never
throw) if that fails, then throw `GIT_CLONE_FAILED` wrapping the cause. -/
def catchBlock (env : Env) (source : GitProjectSource) (tr : List FsEffect)
    (cause : Thrown) : BackendOutcome GitProjectSource :=
  ⟨.error (.derr ("Git clone failed: " ++ cause.message) "GIT_CLONE_FAILED"
      source.type (some cause)),
   source,
   tr ++ [.rmDir env.targetDir]
      ++ (if env.rmOk then [] else [.logError "Failed to cleanup after failed clone:"])⟩

/-- `GitDownloader.download`: validate the URL scheme, compute the target
directory, build the clone URL (via `addAuthToUrl` when auth is present —
never writing to `source`), clone with `--depth: source.depth || 1`,
check out `source.ref` when set; any throw inside the try block runs the
catch block above. -/
def download (env : Env) (source : GitProjectSource) : BackendOutcome GitProjectSource :=
  if ¬ isValidGitUrl source.url then
    ⟨.error (.derr "Invalid Git URL" "INVALID_SOURCE" source.type none), source, []⟩
  else
    let targetDir := env.targetDir
    let depth := match source.depth with
      | some d => if d = 0 then 1 else d   -- `source.depth || 1` (0 is falsy)
      | none => 1
    let cloneUrlE : Except Thrown String :=
      match source.auth with
      | some a => addAuthToUrl source.url a
      | none => .ok source.url
    match cloneUrlE with
    | .error e => catchBlock env source [] e
    | .ok cloneUrl =>
      match env.cloneResult with
      | .error e => catchBlock env source [.gitClone cloneUrl targetDir depth] e
      | .ok _ =>
        match source.ref with
        | some r =>
          match env.checkoutResult with
          | .error e =>
            catchBlock env source
              [.gitClone cloneUrl targetDir depth, .gitCheckout targetDir r] e
          | .ok _ =>
            ⟨.ok ⟨targetDir, none⟩, source,
             [.gitClone cloneUrl targetDir depth, .gitCheckout targetDir r]⟩
        | none =>
          ⟨.ok ⟨targetDir, none⟩, source, [.gitClone cloneUrl targetDir depth]⟩

end GitDownloader

/-! ## GitDownloaderLegacy (older revision of git-downloader.ts)

No URL validation; when auth is present it re-parses `source.url`, sets only
the URL username (the token when present, else the username) and writes the
serialized URL back into `source.url`, mutating the caller's descriptor. -/

namespace GitDownloaderLegacy

/-- `download` of the older revision.  The `new URL(source.url)` inside the
try block throws on an unparseable URL and is caught by the same catch
block, so every failure surfaces as `GIT_CLONE_FAILED`. -/
def download (env : GitDownloader.Env) (source : GitProjectSource) :
    BackendOutcome GitProjectSource :=
  let targetDir := env.targetDir
  let depth := match source.depth with
    | some d => if d = 0 then 1 else d
    | none => 1
  let sourceUrlE : Except Thrown GitProjectSource :=
    match source.auth with
    | none => .ok source
    | some a =>
      match parseUrl source.url with
      | none => .error (.err "Invalid URL")
      | some parsed =>
        let parsed :=
          if strTruthy a.token then { parsed with username := a.token.getD "" }
          else if strTruthy a.username then { parsed with username := a.username.getD "" }
          else parsed
        .ok { source with url := parsed.serialize }
  match sourceUrlE with
  | .error e =>
    ⟨.error (.derr ("Git clone failed: " ++ e.message) "GIT_CLONE_FAILED"
        source.type none),
     source,
     [.rmDir env.targetDir]
        ++ (if env.rmOk then [] else [.logError "Failed to cleanup after failed clone:"])⟩
  | .ok source1 =>
    match env.cloneResult with
    | .error e =>
      ⟨.error (.derr ("Git clone failed: " ++ e.message) "GIT_CLONE_FAILED"
          source1.type none),
       source1,
       [.gitClone source1.url targetDir depth, .rmDir env.targetDir]
          ++ (if env.rmOk then [] else [.logError "Failed to cleanup after failed clone:"])⟩
    | .ok _ =>
      match source1.ref with
      | some r =>
        match env.checkoutResult with
        | .error e =>
          ⟨.error (.derr ("Git clone failed: " ++ e.message) "GIT_CLONE_FAILED"
              source1.type none),
           source1,
           [.gitClone source1.url targetDir depth, .gitCheckout targetDir r,
            .rmDir env.targetDir]
              ++ (if env.rmOk then [] else [.logError "Failed to cleanup after failed clone:"])⟩
        | .ok _ =>
          ⟨.ok ⟨targetDir, none⟩, source1,
           [.gitClone source1.url targetDir depth, .gitCheckout targetDir r]⟩
      | none =>
        ⟨.ok ⟨targetDir, none⟩, source1, [.gitClone source1.url targetDir depth]⟩

end GitDownloaderLegacy

/-! ## LocalDownloader -/

namespace LocalDownloader

/-- Environment of one `LocalDownloader.download` call. -/
structure Env where
  tmp : String := "/tmp"
  uuid : String := "u1"
  accessResult : Except Thrown Unit := .ok ()
  cpResult : Except Thrown Unit := .ok ()
  rmOk : Bool := true
deriving Repr

/-- The target directory `join(tmpdir(), 'js-report-card', uuidv4())`. -/
def Env.targetDir (env : Env) : String :=
  env.tmp ++ "/js-report-card/" ++ env.uuid

/-- `LocalDownloader.download`: reject an empty (after trim) path with
`INVALID_SOURCE`, reject an inaccessible path (`access` throws) with
`INVALID_SOURCE` wrapping the cause, then copy the tree into a fresh target
directory; a copy failure attempts `rm` of the target (logging, not
throwing, if the cleanup fails) and throws `LOCAL_COPY_FAILED` wrapping the
cause. -/
def download (env : Env) (source : LocalProjectSource) :
    BackendOutcome LocalProjectSource :=
  if trimStr source.path = "" then
    ⟨.error (.derr "Invalid path: Path cannot be empty" "INVALID_SOURCE"
        source.type none), source, []⟩
  else
    match env.accessResult with
    | .error e =>
      ⟨.error (.derr ("Path does not exist or is not accessible: " ++ source.path)
          "INVALID_SOURCE" source.type (some e)),
       source, [.accessPath source.path]⟩
    | .ok _ =>
      let targetDir := env.targetDir
      match env.cpResult with
      | .error e =>
        ⟨.error (.derr ("Local copy failed: " ++ e.message) "LOCAL_COPY_FAILED"
            source.type (some e)),
         source,
         [.accessPath source.path, .copyDir source.path targetDir, .rmDir targetDir]
            ++ (if env.rmOk then [] else [.logError "Failed to cleanup after failed copy:"])⟩
      | .ok _ =>
        ⟨.ok ⟨targetDir, none⟩, source,
         [.accessPath source.path, .copyDir source.path targetDir]⟩

end LocalDownloader

/-! ## ZipDownloader -/

/-- The fields of a `fetch` `Response` the downloader reads. -/
structure HttpResponse where
  ok : Bool
  statusText : String := ""
  hasBody : Bool := true
deriving Repr, DecidableEq

/-- Opaque model of `Buffer.from(s).toString('base64')` (no claim inspects
the encoding itself, only which header shape is chosen). -/
def base64Encode (s : String) : String :=
  "base64:" ++ s

namespace ZipDownloader

/-- The `Authorization` header chosen by `fetchWithAuth`: Basic for
`username` + `token`, Bearer for a lone `token`, none otherwise. -/
def authHeader (auth : Option AuthInfo) : Option String :=
  match auth with
  | some a =>
    if strTruthy a.username && strTruthy a.token then
      some ("Basic " ++ base64Encode (a.username.getD "" ++ ":" ++ a.token.getD ""))
    else if strTruthy a.token then
      some ("Bearer " ++ a.token.getD "")
    else none
  | none => none

/-- Environment of one `ZipDownloader.download` call. -/
structure Env where
  tmp : String := "/tmp"
  uuid : String := "u1"
  mkdirResult : Except Thrown Unit := .ok ()
  fetchResult : Except Thrown HttpResponse := .ok { ok := true }
  saveResult : Except Thrown Unit := .ok ()
  extractResult : Except Thrown Unit := .ok ()
  rmZipResult : Except Thrown Unit := .ok ()
  rmOk : Bool := true
deriving Repr

/-- The target directory `join(tmpdir(), 'js-report-card', uuidv4())`. -/
def Env.targetDir (env : Env) : String :=
  env.tmp ++ "/js-report-card/" ++ env.uuid

/-- The catch block: attempt `rm(targetDir)`, log (never throw) if that
fails, then throw `ZIP_DOWNLOAD_FAILED` (this revision passes no cause). -/
def catchBlock (env : Env) (source : ZipProjectSource) (tr : List FsEffect)
    (cause : Thrown) : BackendOutcome ZipProjectSource :=
  ⟨.error (.derr ("Zip download/extraction failed: " ++ cause.message)
      "ZIP_DOWNLOAD_FAILED" source.type none),
   source,
   tr ++ [.rmDir env.targetDir]
      ++ (if env.rmOk then [] else [.logError "Failed to cleanup after failed zip extraction:"])⟩

/-- `ZipDownloader.download`: clear and create the target directory, fetch
the archive with the computed auth header, fail on a non-ok status or a
missing body, stream the body to `download.zip`, extract it into the target
directory and delete the archive file; every throw inside the try block runs
the catch block above. -/
def download (env : Env) (source : ZipProjectSource) :
    BackendOutcome ZipProjectSource :=
  let targetDir := env.targetDir
  let zipPath := targetDir ++ "/download.zip"
  -- `rm(targetDir, ...).catch(() => {})`: outcome deliberately ignored
  let tr0 := [FsEffect.rmDir targetDir]
  match env.mkdirResult with
  | .error e => catchBlock env source tr0 e
  | .ok _ =>
    let tr1 := tr0 ++ [.mkDir targetDir, .httpFetch source.url (authHeader source.auth)]
    match env.fetchResult with
    | .error e => catchBlock env source tr1 e
    | .ok response =>
      if ¬ response.ok then
        catchBlock env source tr1 (.err ("Failed to download: " ++ response.statusText))
      else if ¬ response.hasBody then
        catchBlock env source tr1 (.err "No response body received")
      else
        let tr2 := tr1 ++ [.saveStream zipPath]
        match env.saveResult with
        | .error e => catchBlock env source tr2 e
        | .ok _ =>
          let tr3 := tr2 ++ [.extractArchive zipPath targetDir]
          match env.extractResult with
          | .error e => catchBlock env source tr3 e
          | .ok _ =>
            let tr4 := tr3 ++ [.rmFile zipPath]
            match env.rmZipResult with
            | .error e => catchBlock env source tr4 e
            | .ok _ => ⟨.ok ⟨targetDir, none⟩, source, tr4⟩

end ZipDownloader

/-! ## NpmDownloader -/

namespace NpmDownloader

/-- The package identifier `source.version ? name@version : name` (JS
truthiness: an empty-string version is as absent). -/
def packageId (source : NpmProjectSource) : String :=
  if strTruthy source.version then
    source.packageName ++ "@" ++ source.version.getD ""
  else source.packageName

/-- Environment of one `NpmDownloader.download` call. -/
structure Env where
  tmp : String := "/tmp"
  uuid : String := "u1"
  mkdirResult : Except Thrown Unit := .ok ()
  packResult : Except Thrown String := .ok "pkg-1.0.0.tgz"
  tarResult : Except Thrown Unit := .ok ()
  rmTarResult : Except Thrown Unit := .ok ()
  rmOk : Bool := true
deriving Repr

/-- The target directory `join(tmpdir(), 'js-report-card', uuidv4())`. -/
def Env.targetDir (env : Env) : String :=
  env.tmp ++ "/js-report-card/" ++ env.uuid

/-- The catch block: attempt `rm(targetDir)`, log (never throw) if that
fails, then throw `NPM_DOWNLOAD_FAILED` (this revision passes no cause). -/
def catchBlock (env : Env) (source : NpmProjectSource) (tr : List FsEffect)
    (cause : Thrown) : BackendOutcome NpmProjectSource :=
  ⟨.error (.derr ("NPM download failed: " ++ cause.message)
      "NPM_DOWNLOAD_FAILED" source.type none),
   source,
   tr ++ [.rmDir env.targetDir]
      ++ (if env.rmOk then [] else [.logError "Failed to cleanup after failed npm download:"])⟩

/-- `NpmDownloader.download`: clear and create the target directory, run
`npm pack <packageId> --pack-destination <targetDir>` (its stdout, trimmed,
names the tarball), extract the tarball with `tar`, delete it, and return
the nested `package` directory; every throw inside the try block runs the
catch block above. -/
def download (env : Env) (source : NpmProjectSource) :
    BackendOutcome NpmProjectSource :=
  let targetDir := env.targetDir
  let tr0 := [FsEffect.rmDir targetDir]
  match env.mkdirResult with
  | .error e => catchBlock env source tr0 e
  | .ok _ =>
    let packCmd := "npm pack " ++ packageId source ++ " --pack-destination \"" ++ targetDir ++ "\""
    let tr1 := tr0 ++ [.mkDir targetDir, .runCmd packCmd]
    match env.packResult with
    | .error e => catchBlock env source tr1 e
    | .ok stdout =>
      let tarballPath := targetDir ++ "/" ++ trimStr stdout
      let tr2 := tr1 ++ [.runCmd ("tar -xzf \"" ++ tarballPath ++ "\" -C \"" ++ targetDir ++ "\"")]
      match env.tarResult with
      | .error e => catchBlock env source tr2 e
      | .ok _ =>
        let tr3 := tr2 ++ [.rmFile tarballPath]
        match env.rmTarResult with
        | .error e => catchBlock env source tr3 e
        | .ok _ => ⟨.ok ⟨targetDir ++ "/package", none⟩, source, tr3⟩

/-- Environment of one `NpmDownloader.getCacheKey` call: the outcome of
`npm view <name> version` and the `Date.now()` instant of the call. -/
structure KeyEnv where
  viewResult : Except Thrown String := .ok "1.0.0"
  now : Nat := 0
deriving Repr

/-- `NpmDownloader.getCacheKey`: when the descriptor has no (truthy)
version, resolve the latest published version with `npm view` and write it
back into `source.version` before building the key `npm:name:version`; if
the query throws, return the fallback key `npm:name:<Date.now()>` without
touching the descriptor.  Returns the key, the descriptor state after the
call, and the trace of registry queries. -/
def getCacheKey (env : KeyEnv) (source : NpmProjectSource) :
    String × NpmProjectSource × List FsEffect :=
  if ¬ strTruthy source.version then
    match env.viewResult with
    | .error _ =>
      ("npm:" ++ source.packageName ++ ":" ++ toString env.now, source,
       [.runCmd ("npm view " ++ source.packageName ++ " version")])
    | .ok stdout =>
      let resolved := trimStr stdout
      ("npm:" ++ source.packageName ++ ":" ++ resolved,
       { source with version := some resolved },
       [.runCmd ("npm view " ++ source.packageName ++ " version")])
  else
    ("npm:" ++ source.packageName ++ ":" ++ source.version.getD "", source, [])

end NpmDownloader

/-! ## ProjectDownloader (the dispatcher, downloader.ts) -/

/-- `BaseProjectSource` as the dispatcher sees it: only the tag is
inspected.  `type := none` models a descriptor whose `type` field is
missing (`undefined`). -/
structure BaseSource where
  type : Option String := none
  cacheEnabled : Option Bool := none
deriving Repr, DecidableEq

/-- A registered backend: the capability predicate and the download action
(which may throw any JS value). -/
structure Downloader where
  canHandle : BaseSource → Bool
  download : BaseSource → Except Thrown DownloadResult

/-- The dispatcher's registry: a JS `Map` from identifier to backend,
i.e. an insertion-ordered association list with unique keys. -/
abbrev Registry := List (String × Downloader)

/-- `registerDownloader` (JS `Map.set`): replace in place when the id
exists, else append, preserving insertion order. -/
def registerDownloader (regs : Registry) (id : String) (d : Downloader) : Registry :=
  if regs.any (fun p => p.1 = id) then
    regs.map (fun p => if p.1 = id then (id, d) else p)
  else regs ++ [(id, d)]

/-- Outcome of one dispatcher `download` call: the result, the ids whose
`canHandle` was evaluated (in order), and the id whose `download` was
invoked, if any. -/
structure DispatchOutcome where
  result : Except Thrown DownloadResult
  consulted : List String
  delegated : Option String
deriving Repr

/-- The dispatcher's per-backend call: invoke the chosen backend's
`download`; a thrown value that is not an `Error` instance is wrapped into a
`DOWNLOAD_FAILED` `DownloaderError` carrying it as the cause, while `Error`
instances (typed or not) are rethrown unchanged. -/
def dispatchCall (d : Downloader) (source : BaseSource) :
    Except Thrown DownloadResult :=
  match d.download source with
  | .ok r => .ok r
  | .error e =>
    if ¬ e.isErrorInstance then
      .error (.derr "Download failed with non-Error object" "DOWNLOAD_FAILED"
        (source.type.getD "undefined") (some e))
    else .error e

/-- The dispatcher's registry iteration: first backend whose `canHandle`
returns true wins; if none matches, throw `DOWNLOADER_NOT_FOUND`. -/
def dispatchLoop (regs : Registry) (source : BaseSource) : DispatchOutcome :=
  match regs with
  | [] =>
    ⟨.error (.derr "No compatible downloader found" "DOWNLOADER_NOT_FOUND"
        (source.type.getD "undefined") none), [], none⟩
  | (id, d) :: rest =>
    if d.canHandle source then
      ⟨dispatchCall d source, [id], some id⟩
    else
      let o := dispatchLoop rest source
      ⟨o.result, id :: o.consulted, o.delegated⟩

namespace ProjectDownloader

/-- `ProjectDownloader.download`: reject a null/undefined descriptor and a
descriptor with a missing (falsy) `type` with `INVALID_SOURCE`, then walk
the registry in insertion order. -/
def download (regs : Registry) (source : Option BaseSource) : DispatchOutcome :=
  match source with
  | none =>
    ⟨.error (.derr "Invalid source: source cannot be null or undefined"
        "INVALID_SOURCE" "unknown" none), [], none⟩
  | some s =>
    if ¬ strTruthy s.type then
      ⟨.error (.derr "Invalid source: missing source type" "INVALID_SOURCE"
          "unknown" none), [], none⟩
    else dispatchLoop regs s

end ProjectDownloader

/-! ## Analyzer data model (types.ts) -/

/-- `IssueSeverity`. -/
inductive Severity where
  | error
  | warning
  | info
deriving Repr, DecidableEq

/-- `AnalysisIssue`. -/
structure AnalysisIssue where
  severity : Severity
  message : String
  rule : String
  file : String
  line : Nat
  column : Nat
  source : Option String := none
  suggestion : Option String := none
deriving Repr, DecidableEq

/-- A `Record<string, unknown>` (rules, metadata): an association list with
opaque string values. -/
abbrev RuleMap := List (String × String)

/-- `AnalyzerConfig`.  The `include`/`exclude` glob lists are named
`includeGlobs`/`excludeGlobs` because `include` is a Lean keyword. -/
structure AnalyzerConfig where
  enabled : Bool
  rules : Option RuleMap := none
  includeGlobs : Option (List String) := none
  excludeGlobs : Option (List String) := none
deriving Repr, DecidableEq

/-- `AnalyzerResult`. -/
structure AnalyzerResult where
  analyzerId : String
  score : Nat
  issues : List AnalysisIssue
  metadata : Option RuleMap := none
deriving Repr, DecidableEq

/-- `AnalysisContext`: `config := none` models the `Omit<AnalysisContext,
'config'>` value handed to `runAnalysis`; the manager fills the field in per
analyzer. -/
structure AnalysisContext where
  projectRoot : String
  files : List String
  config : Option AnalyzerConfig := none
  downloadResult : Option DownloadResult := none
deriving Repr, DecidableEq

/-- `IAnalyzer`: the analysis and validation steps may throw any JS value. -/
structure Analyzer where
  id : String
  name : String := ""
  description : String := ""
  analyze : AnalysisContext → Except Thrown AnalyzerResult
  validateConfig : RuleMap → Except Thrown Unit

/-- `AnalyzerError` as thrown by the manager (errors.ts): message, the
offending analyzer id, and a stable code. -/
structure AnalyzerError where
  message : String
  analyzerId : String
  code : String
deriving Repr, DecidableEq

/-- `CacheEntry` (cache module): creation timestamp, source fingerprint and
the cached result list. -/
structure CacheEntry where
  timestamp : Nat
  source : Metadata
  results : List AnalyzerResult
deriving Repr, DecidableEq

/-- `MemoryCache`: a JS `Map` from key to entry. -/
abbrev Cache := List (String × CacheEntry)

namespace MemoryCache

/-- `MemoryCache.get`: `this.cache.get(key) || null` (first — and only —
binding for the key in the insertion-ordered map). -/
def get : Cache → String → Option CacheEntry
  | [], _ => none
  | p :: rest, key => if p.1 = key then some p.2 else get rest key

/-- `MemoryCache.set` (JS `Map.set`): replace in place when the key exists,
else append at the end. -/
def set : Cache → String → CacheEntry → Cache
  | [], key, entry => [(key, entry)]
  | p :: rest, key, entry =>
    if p.1 = key then (key, entry) :: rest else p :: set rest key entry

end MemoryCache

/-! ## AnalyzerManager -/

/-- `AnalyzerManager` state: the insertion-ordered analyzer registry, the
optional configured cache (its contents made explicit), and the resolved
max cache age in milliseconds (`options.maxCacheAge || 24*60*60*1000`). -/
structure AnalyzerManager where
  analyzers : List (String × Analyzer)
  cache : Option Cache := none
  maxCacheAge : Nat := 86400000

namespace AnalyzerManager

/-- `configs[id] ?? { enabled: true }`. -/
def configFor (configs : List (String × AnalyzerConfig)) (id : String) : AnalyzerConfig :=
  match configs.find? (fun p => p.1 = id) with
  | some p => p.2
  | none => { enabled := true }

/-- The body of one analyzer's turn inside `runAnalyzers`'s try block:
`validateConfig(config.rules)` when rules are present, then
`analyze({...context, config})`. -/
def analyzerStep (context : AnalysisContext) (config : AnalyzerConfig)
    (a : Analyzer) : Except Thrown AnalyzerResult :=
  match config.rules with
  | some r =>
    match a.validateConfig r with
    | .error e => .error e
    | .ok _ => a.analyze { context with config := some config }
  | none => a.analyze { context with config := some config }

/-- Whether the turn reaches the `analyze` call (validation present and
failing stops it). -/
def analyzeReached (config : AnalyzerConfig) (a : Analyzer) : Bool :=
  match config.rules with
  | some r =>
    match a.validateConfig r with
    | .ok _ => true
    | .error _ => false
  | none => true

/-- Whether an analyzer's executed step throws for this call. -/
def stepFails (context : AnalysisContext)
    (configs : List (String × AnalyzerConfig)) (p : String × Analyzer) : Bool :=
  match analyzerStep context (configFor configs p.1) p.2 with
  | .ok _ => false
  | .error _ => true

/-- Result of `runAnalyzers`/`runAnalysis` plus the ids whose `analyze` was
invoked, in execution order. -/
structure RunOutcome where
  result : Except AnalyzerError (List AnalyzerResult)
  invoked : List String

/-- `runAnalyzers`: walk the registry in insertion order, skip disabled
analyzers, rewrap the first thrown step as an `ANALYSIS_FAILED`
`AnalyzerError` naming the analyzer id (aborting the run), and otherwise
accumulate results. -/
def runAnalyzers (analyzers : List (String × Analyzer)) (context : AnalysisContext)
    (configs : List (String × AnalyzerConfig)) : RunOutcome :=
  match analyzers with
  | [] => ⟨.ok [], []⟩
  | (id, a) :: rest =>
    if ¬ (configFor configs id).enabled then runAnalyzers rest context configs
    else
      match analyzerStep context (configFor configs id) a with
      | .error e =>
        ⟨.error ⟨"Analysis failed for analyzer \"" ++ id ++ "\": " ++ e.message,
            id, "ANALYSIS_FAILED"⟩,
         if analyzeReached (configFor configs id) a then [id] else []⟩
      | .ok res =>
        let o := runAnalyzers rest context configs
        ⟨match o.result with
         | .ok rs => .ok (res :: rs)
         | .error e => .error e,
         id :: o.invoked⟩

/-- The fingerprint metadata the cache logic reads:
`context.downloadResult?.metadata`. -/
def contextMeta (context : AnalysisContext) : Option Metadata :=
  context.downloadResult.bind (fun dr => dr.metadata)

/-- `isCacheValid`: the entry's age `now - timestamp` is strictly below the
configured max age (computed over the integers, as JS numbers are signed). -/
def isCacheValid (maxCacheAge : Nat) (now : Nat) (entry : CacheEntry) : Bool :=
  (now : Int) - (entry.timestamp : Int) < (maxCacheAge : Int)

/-- The ids of the analyzers a full (uncached, unaborted) run invokes: the
registered analyzers whose resolved config is enabled, in order. -/
def enabledIds (analyzers : List (String × Analyzer))
    (configs : List (String × AnalyzerConfig)) : List String :=
  (analyzers.filter (fun p => (configFor configs p.1).enabled)).map Prod.fst

/-- The cache-miss path of `runAnalysis`: run the analyzers and, when they
all succeed, store the fresh entry under the fingerprint's version key with
the current timestamp (a thrown run stores nothing). -/
def runAndStore (mgr : AnalyzerManager) (context : AnalysisContext)
    (configs : List (String × AnalyzerConfig)) (now : Nat) (c : Cache)
    (md : Metadata) : RunOutcome × Option Cache :=
  let o := runAnalyzers mgr.analyzers context configs
  match o.result with
  | .ok rs => (o, some (MemoryCache.set c md.version ⟨now, md, rs⟩))
  | .error _ => (o, some c)

/-- `runAnalysis`: with a configured cache and fingerprint metadata, a
stored entry under the fingerprint's version that is still within max age is
returned as-is (no analyzer runs); otherwise the analyzers run and a
successful result set is stored under that key, overwriting any prior
entry.  Without a cache or metadata the analyzers simply run.  The two
`Date.now()` reads of one call are modelled by the single instant `now`. -/
def runAnalysis (mgr : AnalyzerManager) (context : AnalysisContext)
    (configs : List (String × AnalyzerConfig)) (now : Nat) :
    RunOutcome × Option Cache :=
  match mgr.cache, contextMeta context with
  | some c, some md =>
    match MemoryCache.get c md.version with
    | some cached =>
      if isCacheValid mgr.maxCacheAge now cached then
        (⟨.ok cached.results, []⟩, some c)
      else runAndStore mgr context configs now c md
    | none => runAndStore mgr context configs now c md
  | _, _ => (runAnalyzers mgr.analyzers context configs, mgr.cache)

end AnalyzerManager

/-! ## Spec-side definition used by C8

The spec restricts acceptable VersionControl URLs to "secure-transport or
SSH-style schemes".  This predicate follows the spec's words (secure
transport = `https:`, SSH-style = `ssh:`) so it can be compared with the
source's `isValidGitUrl`. -/

/-- Spec reading of "secure-transport or SSH-style scheme". -/
def specSecureOrSshScheme (url : String) : Bool :=
  match parseUrl url with
  | some u => u.scheme = "https" || u.scheme = "ssh"
  | none => false

/-- `resultCode`: the `DownloaderError` code of a failed download, if the
thrown value carries one. -/
def resultCode (r : Except Thrown DownloadResult) : Option String :=
  match r with
  | .error t => t.errCode
  | .ok _ => none

/-! ## Concrete fixtures for counterexamples and witnesses -/

/-- A backend that accepts every descriptor and returns the fixed path `p`. -/
def dAlways (p : String) : Downloader :=
  { canHandle := fun _ => true, download := fun _ => .ok ⟨p, none⟩ }

/-- A backend that rejects every descriptor. -/
def dNever : Downloader :=
  { canHandle := fun _ => false, download := fun _ => .ok ⟨"/never", none⟩ }

/-- A backend that accepts everything and throws a plain (non-Downloader)
`Error`, as a raw platform exception would be. -/
def dThrowsPlainError : Downloader :=
  { canHandle := fun _ => true, download := fun _ => .error (.err "ECONNRESET") }

/-- A backend that accepts everything and throws a non-Error value. -/
def dThrowsString : Downloader :=
  { canHandle := fun _ => true, download := fun _ => .error (.nonErr "string error") }

/-- Registry for the C2 counterexample: three backends, all matching. -/
def cexRegistry : Registry :=
  [("a", dAlways "/a"), ("b", dAlways "/b"), ("c", dAlways "/c")]

/-- A git descriptor used by several concrete theorems. -/
def gitSrcTokenOnly : GitProjectSource :=
  { url := "https://example.com/repo.git", auth := some { token := some "T" } }

/-- A git descriptor with username and token. -/
def gitSrcUserToken : GitProjectSource :=
  { url := "https://example.com/repo.git",
    auth := some { username := some "u", token := some "T" } }

/-- The mock result every well-behaved fixture analyzer returns. -/
def mockResult (id : String) : AnalyzerResult := ⟨id, 100, [], none⟩

/-- A fixture analyzer whose steps always succeed. -/
def okAnalyzer (id : String) : Analyzer :=
  { id := id, name := "Mock Analyzer " ++ id, description := "A mock analyzer",
    analyze := fun _ => .ok (mockResult id), validateConfig := fun _ => .ok () }

/-- A fixture analyzer whose `analyze` step throws. -/
def failingAnalyzer : Analyzer :=
  { id := "bad", name := "Failing", description := "Always throws",
    analyze := fun _ => .error (.err "Analysis failed"),
    validateConfig := fun _ => .ok () }

/-- Fixture fingerprint metadata. -/
def mdW : Metadata := ⟨"test-version", "git", none⟩

/-- The result stored in the fixture cache entry. -/
def cachedResult : AnalyzerResult := ⟨"cached", 90, [], none⟩

/-- Fixture cache entry, written at instant 500. -/
def entryW : CacheEntry := ⟨500, mdW, [cachedResult]⟩

/-- Fixture cache holding `entryW` under the fixture fingerprint. -/
def cacheW : Cache := [("test-version", entryW)]

/-- Fixture analysis context carrying the fixture fingerprint. -/
def ctxW : AnalysisContext :=
  { projectRoot := "/test", files := ["file1.ts"],
    downloadResult := some ⟨"/test", some mdW⟩ }

/-- Fixture manager: one well-behaved analyzer, the fixture cache, max age 1000. -/
def mgrW : AnalyzerManager := ⟨[("test", okAnalyzer "test")], some cacheW, 1000⟩

/-- Fixture manager with a failing analyzer and no cache. -/
def mgrFail : AnalyzerManager := ⟨[("bad", failingAnalyzer)], none, 86400000⟩

/-- Configs enabling the fixture analyzer. -/
def cfgEnabled : List (String × AnalyzerConfig) := [("test", { enabled := true })]

/-- Configs disabling the fixture analyzer. -/
def cfgDisabled : List (String × AnalyzerConfig) := [("test", { enabled := false })]

/-- Git environment whose clone step fails. -/
def gitEnvCloneFail : GitDownloader.Env :=
  { cloneResult := .error (.err "Network error") }

/-- Zip environment whose fetch step fails. -/
def zipEnvFail : ZipDownloader.Env :=
  { fetchResult := .error (.err "fetch failed") }

/-- Npm environment whose pack step fails. -/
def npmEnvFail : NpmDownloader.Env :=
  { packResult := .error (.err "pack failed") }

/-- Local environment whose copy step fails. -/
def localEnvFail : LocalDownloader.Env :=
  { cpResult := .error (.err "Copy failed") }

/-- Fixture archive descriptor. -/
def zipSrcW : ZipProjectSource := { url := "https://example.com/p.zip" }

/-- Fixture registry descriptor with no version. -/
def npmSrcW : NpmProjectSource := { packageName := "pkg" }

/-- Fixture local descriptor. -/
def localSrcW : LocalProjectSource := { path := "/path/to/project" }

/-! ## Helper lemmas -/

open AnalyzerManager

/-- The dispatcher loop delegates to the first registered matching backend
and consults exactly the earlier (non-matching) ids plus the winner. -/
theorem dispatchLoop_first_match (pre rest : Registry) (id1 : String)
    (b1 : Downloader) (s : BaseSource)
    (hpre : ∀ p ∈ pre, p.2.canHandle s = false)
    (h1 : b1.canHandle s = true) :
    dispatchLoop (pre ++ (id1, b1) :: rest) s
      = ⟨dispatchCall b1 s, pre.map Prod.fst ++ [id1], some id1⟩ := by
  induction pre with
  | nil => simp [dispatchLoop, h1]
  | cons hd tl ih =>
    have hhd : hd.2.canHandle s = false := hpre hd (by simp)
    have htl : ∀ p ∈ tl, p.2.canHandle s = false := fun p hp => hpre p (by simp [hp])
    rcases hd with ⟨id0, d0⟩
    simp only at hhd
    simp [dispatchLoop, hhd, ih htl]

/-- Overwriting `Map.set` followed by `get` of the same key yields the new
entry. -/
theorem MemoryCache.get_set (c : Cache) (k : String) (e : CacheEntry) :
    MemoryCache.get (MemoryCache.set c k e) k = some e := by
  induction c with
  | nil => simp [MemoryCache.get, MemoryCache.set]
  | cons hd tl ih =>
    by_cases hhd : hd.1 = k
    · simp [MemoryCache.get, MemoryCache.set, hhd]
    · simp [MemoryCache.get, MemoryCache.set, hhd, ih]

/-- A fully successful `runAnalyzers` pass invokes exactly the enabled
analyzers, in registration order. -/
theorem runAnalyzers_ok_invoked (analyzers : List (String × Analyzer))
    (context : AnalysisContext) (configs : List (String × AnalyzerConfig)) :
    ∀ rs, (runAnalyzers analyzers context configs).result = .ok rs →
      (runAnalyzers analyzers context configs).invoked = enabledIds analyzers configs := by
  induction analyzers with
  | nil => intro rs _; simp [runAnalyzers, enabledIds]
  | cons hd tl ih =>
    rcases hd with ⟨id, a⟩
    intro rs h
    by_cases hen : (configFor configs id).enabled
    · rw [runAnalyzers] at h ⊢
      rw [if_neg (fun hh => hh hen)] at h ⊢
      cases hstep : analyzerStep context (configFor configs id) a with
      | error e =>
        rw [hstep] at h
        simp at h
      | ok res =>
        rw [hstep] at h
        dsimp only at h ⊢
        cases hres : (runAnalyzers tl context configs).result with
        | error e => rw [hres] at h; simp at h
        | ok rs2 =>
          have hinv := ih rs2 hres
          simp [enabledIds, hen, hinv]
    · rw [runAnalyzers] at h ⊢
      rw [if_pos hen] at h ⊢
      rw [ih rs h]
      simp [enabledIds, hen]

/-- When some enabled analyzer's executed step throws, `runAnalyzers` yields
an `ANALYSIS_FAILED` error naming such an analyzer. -/
theorem runAnalyzers_first_failure (analyzers : List (String × Analyzer))
    (context : AnalysisContext) (configs : List (String × AnalyzerConfig))
    (h : ∃ p ∈ analyzers, (configFor configs p.1).enabled = true
        ∧ stepFails context configs p = true) :
    ∃ e, (runAnalyzers analyzers context configs).result = .error e
      ∧ e.code = "ANALYSIS_FAILED"
      ∧ ∃ p ∈ analyzers, (configFor configs p.1).enabled = true
          ∧ stepFails context configs p = true ∧ e.analyzerId = p.1 := by
  induction analyzers with
  | nil => simp at h
  | cons hd tl ih =>
    rcases hd with ⟨id, a⟩
    by_cases hen : (configFor configs id).enabled
    · cases hstep : analyzerStep context (configFor configs id) a with
      | error e0 =>
        refine ⟨⟨"Analysis failed for analyzer \"" ++ id ++ "\": " ++ e0.message,
            id, "ANALYSIS_FAILED"⟩, ?_, rfl, ⟨(id, a), by simp, hen, ?_, rfl⟩⟩
        · rw [runAnalyzers]
          rw [if_neg (fun hh => hh hen)]
          rw [hstep]
        · simp [stepFails, hstep]
      | ok res =>
        have htl : ∃ p ∈ tl, (configFor configs p.1).enabled = true
            ∧ stepFails context configs p = true := by
          rcases h with ⟨p, hp, hpe, hpf⟩
          rcases List.mem_cons.mp hp with hph | hpt
          · rw [hph] at hpf
            simp [stepFails, hstep] at hpf
          · exact ⟨p, hpt, hpe, hpf⟩
        rcases ih htl with ⟨e, he, hc, p, hp, hpe, hpf, hid⟩
        refine ⟨e, ?_, hc, ⟨p, List.mem_cons_of_mem _ hp, hpe, hpf, hid⟩⟩
        rw [runAnalyzers]
        rw [if_neg (fun hh => hh hen)]
        rw [hstep]
        dsimp only
        rw [he]
    · have htl : ∃ p ∈ tl, (configFor configs p.1).enabled = true
          ∧ stepFails context configs p = true := by
        rcases h with ⟨p, hp, hpe, hpf⟩
        rcases List.mem_cons.mp hp with hph | hpt
        · rw [hph] at hpe; exact absurd hpe hen
        · exact ⟨p, hpt, hpe, hpf⟩
      rcases ih htl with ⟨e, he, hc, p, hp, hpe, hpf, hid⟩
      refine ⟨e, ?_, hc, ⟨p, List.mem_cons_of_mem _ hp, hpe, hpf, hid⟩⟩
      rw [runAnalyzers, if_pos hen]
      exact he

/-- A valid (unexpired) cache hit short-circuits `runAnalysis`: the stored
results come back, nothing is invoked, the cache is untouched. -/
theorem runAnalysis_cache_hit (mgr : AnalyzerManager) (context : AnalysisContext)
    (configs : List (String × AnalyzerConfig)) (now : Nat) (c : Cache)
    (md : Metadata) (entry : CacheEntry)
    (hc : mgr.cache = some c) (hmd : contextMeta context = some md)
    (hget : MemoryCache.get c md.version = some entry)
    (hvalid : isCacheValid mgr.maxCacheAge now entry = true) :
    runAnalysis mgr context configs now = (⟨.ok entry.results, []⟩, some c) := by
  unfold runAnalysis
  rw [hc, hmd]
  simp [hget, hvalid]

/-! ## Claim theorems -/

/-- C1: with a configured cache and fingerprint metadata, `runAnalysis`
returns a stored entry's results untouched (invoking no analyzer) whenever
the entry's age is strictly below the max age, and otherwise (entry absent
or at/after max age) re-invokes exactly the enabled analyzers and stores the
fresh results under the fingerprint's version key with the current
timestamp, unconditionally overwriting any prior entry. -/
theorem C1_runAnalysis_cache_gating (mgr : AnalyzerManager)
    (context : AnalysisContext) (configs : List (String × AnalyzerConfig))
    (now : Nat) (c : Cache) (md : Metadata)
    (hc : mgr.cache = some c)
    (hmd : contextMeta context = some md) :
    (∀ entry, MemoryCache.get c md.version = some entry →
        isCacheValid mgr.maxCacheAge now entry = true →
        runAnalysis mgr context configs now = (⟨.ok entry.results, []⟩, some c))
  ∧ (∀ rs,
        (MemoryCache.get c md.version = none
          ∨ ∃ entry, MemoryCache.get c md.version = some entry
              ∧ isCacheValid mgr.maxCacheAge now entry = false) →
        (runAnalyzers mgr.analyzers context configs).result = .ok rs →
        runAnalysis mgr context configs now
          = (⟨.ok rs, enabledIds mgr.analyzers configs⟩,
             some (MemoryCache.set c md.version ⟨now, md, rs⟩))
        ∧ MemoryCache.get (MemoryCache.set c md.version ⟨now, md, rs⟩) md.version
            = some ⟨now, md, rs⟩) := by
  constructor
  · intro entry hget hvalid
    exact runAnalysis_cache_hit mgr context configs now c md entry hc hmd hget hvalid
  · intro rs hmiss hok
    have hrun : runAnalyzers mgr.analyzers context configs
        = ⟨.ok rs, enabledIds mgr.analyzers configs⟩ := by
      have hinv := runAnalyzers_ok_invoked mgr.analyzers context configs rs hok
      rcases hE : runAnalyzers mgr.analyzers context configs with ⟨res, inv⟩
      rw [hE] at hok hinv
      dsimp only at hok hinv
      rw [hok, hinv]
    refine ⟨?_, MemoryCache.get_set c md.version ⟨now, md, rs⟩⟩
    unfold runAnalysis runAndStore
    rw [hc, hmd]
    dsimp only
    rcases hmiss with hnone | ⟨entry, hget, hstale⟩
    · rw [hnone]
      simp [hrun]
    · rw [hget]
      simp [hstale, hrun]

/-- C1 witness: on the fixture state, a call at instant 600 (age 100 < 1000)
returns the cached results and invokes nothing, and a call at instant 2000
(age 1500 ≥ 1000) invokes the enabled analyzer and overwrites the entry. -/
theorem C1_witness :
    runAnalysis mgrW ctxW cfgEnabled 600 = (⟨.ok [cachedResult], []⟩, some cacheW)
  ∧ runAnalysis mgrW ctxW cfgEnabled 2000
      = (⟨.ok [mockResult "test"], ["test"]⟩,
         some (MemoryCache.set cacheW "test-version" ⟨2000, mdW, [mockResult "test"]⟩)) := by
  constructor
  · exact (C1_runAnalysis_cache_gating mgrW ctxW cfgEnabled 600 cacheW mdW rfl rfl).1
      entryW rfl (by decide)
  · exact ((C1_runAnalysis_cache_gating mgrW ctxW cfgEnabled 2000 cacheW mdW rfl rfl).2
      [mockResult "test"] (Or.inr ⟨entryW, rfl, by decide⟩) rfl).1

/-- C2 counterexample: with three registered backends `a`, `b`, `c` that all
match the descriptor, `b` is registered before `c` and both `canHandle`
return true, yet `download` delegates to `a`, not to `b` — so the claim's
"delegates to b1's download" fails for the pair (b1, b2) = (b, c). -/
theorem C2_counterexample :
    ((dAlways "/b").canHandle { type := some "git" } = true)
  ∧ ((dAlways "/c").canHandle { type := some "git" } = true)
  ∧ cexRegistry = [("a", dAlways "/a"), ("b", dAlways "/b"), ("c", dAlways "/c")]
  ∧ (ProjectDownloader.download cexRegistry (some { type := some "git" })).delegated
      = some "a"
  ∧ (ProjectDownloader.download cexRegistry (some { type := some "git" })).result
      = .ok ⟨"/a", none⟩
  ∧ some "a" ≠ some "b" := by
  refine ⟨rfl, rfl, rfl, rfl, rfl, by decide⟩

/-- C2 (amended): for a descriptor with a non-missing tag, the dispatcher
delegates to the earliest-registered backend whose `canHandle` matches;
every backend registered before it is consulted (capability check only),
and no backend registered after the winner — in particular no
later-matching b2 — is ever consulted. -/
theorem C2_first_match_delegation (pre rest : Registry) (id1 : String)
    (b1 : Downloader) (s : BaseSource)
    (hpre : ∀ p ∈ pre, p.2.canHandle s = false)
    (h1 : b1.canHandle s = true)
    (hty : strTruthy s.type = true)
    (hkeys : ((pre ++ (id1, b1) :: rest).map Prod.fst).Nodup) :
    (ProjectDownloader.download (pre ++ (id1, b1) :: rest) (some s)).delegated = some id1
  ∧ (ProjectDownloader.download (pre ++ (id1, b1) :: rest) (some s)).result
      = dispatchCall b1 s
  ∧ (ProjectDownloader.download (pre ++ (id1, b1) :: rest) (some s)).consulted
      = pre.map Prod.fst ++ [id1]
  ∧ ∀ p ∈ rest,
      p.1 ∉ (ProjectDownloader.download (pre ++ (id1, b1) :: rest) (some s)).consulted := by
  have hrun : ProjectDownloader.download (pre ++ (id1, b1) :: rest) (some s)
      = dispatchLoop (pre ++ (id1, b1) :: rest) s := by
    simp [ProjectDownloader.download, hty]
  rw [hrun, dispatchLoop_first_match pre rest id1 b1 s hpre h1]
  refine ⟨rfl, rfl, rfl, ?_⟩
  intro p hp hmem
  have hp1 : p.1 ∈ rest.map Prod.fst := List.mem_map_of_mem Prod.fst hp
  have hmap : (pre ++ (id1, b1) :: rest).map Prod.fst
      = pre.map Prod.fst ++ id1 :: rest.map Prod.fst := by simp
  rw [hmap] at hkeys
  have hdisj := List.disjoint_of_nodup_append hkeys
  have hnd2 : (id1 :: rest.map Prod.fst).Nodup := hkeys.of_append_right
  rcases List.mem_append.mp hmem with hin | hin
  · exact hdisj hin (List.mem_cons_of_mem _ hp1)
  · have hid : p.1 = id1 := by simpa using hin
    exact (List.nodup_cons.mp hnd2).1 (hid ▸ hp1)

/-- C2 witness: a non-matching backend, then the matching winner `m`, then a
later matching backend `n`: delegation goes to `m`, the consulted ids are
exactly `z` and `m`, and `n` is never consulted. -/
theorem C2_witness :
    (ProjectDownloader.download [("z", dNever), ("m", dAlways "/m"), ("n", dAlways "/n")]
        (some { type := some "git" })).delegated = some "m"
  ∧ (ProjectDownloader.download [("z", dNever), ("m", dAlways "/m"), ("n", dAlways "/n")]
        (some { type := some "git" })).result = .ok ⟨"/m", none⟩
  ∧ (ProjectDownloader.download [("z", dNever), ("m", dAlways "/m"), ("n", dAlways "/n")]
        (some { type := some "git" })).consulted = ["z", "m"]
  ∧ ∀ p ∈ [("n", dAlways "/n")],
      p.1 ∉ (ProjectDownloader.download
          [("z", dNever), ("m", dAlways "/m"), ("n", dAlways "/n")]
          (some { type := some "git" })).consulted := by
  have h := C2_first_match_delegation [("z", dNever)] [("n", dAlways "/n")] "m"
    (dAlways "/m") { type := some "git" }
    (by intro p hp; rw [List.mem_singleton.mp hp]; rfl) rfl rfl (by decide)
  exact ⟨h.1, h.2.1, h.2.2.1, h.2.2.2⟩

/-- C3: when no valid cache hit preempts the run and some enabled analyzer's
executed step (validation or analysis) throws, `runAnalysis` fails with an
`ANALYSIS_FAILED` `AnalyzerError` whose `analyzerId` names a failing enabled
analyzer; no result list is returned and the cache is left untouched. -/
theorem C3_abort_on_first_failure (mgr : AnalyzerManager)
    (context : AnalysisContext) (configs : List (String × AnalyzerConfig)) (now : Nat)
    (hnohit : ∀ c md entry, mgr.cache = some c → contextMeta context = some md →
        MemoryCache.get c md.version = some entry →
        isCacheValid mgr.maxCacheAge now entry = false)
    (hfail : ∃ p ∈ mgr.analyzers, (configFor configs p.1).enabled = true
        ∧ stepFails context configs p = true) :
    ∃ e, (runAnalysis mgr context configs now).1.result = .error e
      ∧ e.code = "ANALYSIS_FAILED"
      ∧ (∃ p ∈ mgr.analyzers, (configFor configs p.1).enabled = true
          ∧ stepFails context configs p = true ∧ e.analyzerId = p.1)
      ∧ (runAnalysis mgr context configs now).2 = mgr.cache := by
  rcases runAnalyzers_first_failure mgr.analyzers context configs hfail with
    ⟨e, he, hcode, hwit⟩
  have hkey : runAnalysis mgr context configs now
      = (runAnalyzers mgr.analyzers context configs, mgr.cache) := by
    unfold runAnalysis
    cases hcache : mgr.cache with
    | none => cases hmeta : contextMeta context <;> simp
    | some c =>
      cases hmeta : contextMeta context with
      | none => simp
      | some md =>
        cases hget : MemoryCache.get c md.version with
        | none => simp [hget, runAndStore, he]
        | some entry =>
          have hstale := hnohit c md entry hcache hmeta hget
          simp [hget, hstale, runAndStore, he]
  rw [hkey]
  exact ⟨e, he, hcode, hwit, rfl⟩

/-- C3 witness: the fixture manager with one throwing analyzer and no cache
aborts with `ANALYSIS_FAILED` naming it, leaving the (absent) cache as is. -/
theorem C3_witness :
    ∃ e, (runAnalysis mgrFail ctxW [] 0).1.result = .error e
      ∧ e.code = "ANALYSIS_FAILED"
      ∧ (∃ p ∈ mgrFail.analyzers, (configFor [] p.1).enabled = true
          ∧ stepFails ctxW [] p = true ∧ e.analyzerId = p.1)
      ∧ (runAnalysis mgrFail ctxW [] 0).2 = mgrFail.cache :=
  C3_abort_on_first_failure mgrFail ctxW [] 0
    (fun _ _ _ hc _ _ => Option.noConfusion hc)
    ⟨("bad", failingAnalyzer), by simp [mgrFail], rfl, rfl⟩

set_option maxHeartbeats 1600000 in
/-- C4: for each backend (version-control, archive/zip, registry/npm,
local), any acquisition that fails after the target directory path is
established attempts `rm` of that directory and raises a `DownloaderError`
with that backend's fixed code; and the failure or success of the removal
attempt never changes the returned result (so the original cause is never
masked by a cleanup failure). -/
theorem C4_cleanup_on_failed_acquisition :
    (∀ (env : GitDownloader.Env) (src : GitProjectSource),
        GitDownloader.isValidGitUrl src.url = true →
        ∀ e, (GitDownloader.download env src).result = .error e →
          FsEffect.rmDir env.targetDir ∈ (GitDownloader.download env src).trace
          ∧ e.errCode = some "GIT_CLONE_FAILED")
  ∧ (∀ (env : GitDownloader.Env) (src : GitProjectSource) (b : Bool),
        (GitDownloader.download { env with rmOk := b } src).result
          = (GitDownloader.download env src).result)
  ∧ (∀ (env : ZipDownloader.Env) (src : ZipProjectSource),
        ∀ e, (ZipDownloader.download env src).result = .error e →
          FsEffect.rmDir env.targetDir ∈ (ZipDownloader.download env src).trace
          ∧ e.errCode = some "ZIP_DOWNLOAD_FAILED")
  ∧ (∀ (env : ZipDownloader.Env) (src : ZipProjectSource) (b : Bool),
        (ZipDownloader.download { env with rmOk := b } src).result
          = (ZipDownloader.download env src).result)
  ∧ (∀ (env : NpmDownloader.Env) (src : NpmProjectSource),
        ∀ e, (NpmDownloader.download env src).result = .error e →
          FsEffect.rmDir env.targetDir ∈ (NpmDownloader.download env src).trace
          ∧ e.errCode = some "NPM_DOWNLOAD_FAILED")
  ∧ (∀ (env : NpmDownloader.Env) (src : NpmProjectSource) (b : Bool),
        (NpmDownloader.download { env with rmOk := b } src).result
          = (NpmDownloader.download env src).result)
  ∧ (∀ (env : LocalDownloader.Env) (src : LocalProjectSource),
        trimStr src.path ≠ "" → env.accessResult = .ok () →
        ∀ e, (LocalDownloader.download env src).result = .error e →
          FsEffect.rmDir env.targetDir ∈ (LocalDownloader.download env src).trace
          ∧ e.errCode = some "LOCAL_COPY_FAILED")
  ∧ (∀ (env : LocalDownloader.Env) (src : LocalProjectSource) (b : Bool),
        (LocalDownloader.download { env with rmOk := b } src).result
          = (LocalDownloader.download env src).result) := by
  refine ⟨?_, ?_, ?_, ?_, ?_, ?_, ?_, ?_⟩
  · intro env src hv e
    unfold GitDownloader.download GitDownloader.catchBlock
    simp only [hv, not_true_eq_false, if_false, Bool.not_true]
    repeat' first
      | split
      | dsimp only
    all_goals intro ht
    all_goals first
      | (cases ht; exact ⟨by simp, rfl⟩)
      | simp at ht
  · intro env src b
    unfold GitDownloader.download GitDownloader.catchBlock
    repeat' first
      | rfl
      | split
      | dsimp only
    all_goals simp_all
  · intro env src e
    unfold ZipDownloader.download ZipDownloader.catchBlock
    repeat' first
      | split
      | dsimp only
    all_goals intro ht
    all_goals first
      | (cases ht; exact ⟨by simp, rfl⟩)
      | simp at ht
  · intro env src b
    rcases env with ⟨tmp, uuid, mkr, fr, sr, er, rr, rm⟩
    rcases mkr with e | u
    · rfl
    · rcases fr with e | resp
      · rfl
      · rcases resp with ⟨ok, st, hb⟩
        cases ok
        · rfl
        · cases hb
          · rfl
          · rcases sr with e | u2
            · rfl
            · rcases er with e | u3
              · rfl
              · rcases rr with e | u4 <;> rfl
  · intro env src e
    unfold NpmDownloader.download NpmDownloader.catchBlock
    repeat' first
      | split
      | dsimp only
    all_goals intro ht
    all_goals first
      | (cases ht; exact ⟨by simp, rfl⟩)
      | simp at ht
  · intro env src b
    rcases env with ⟨tmp, uuid, mkr, pr, tr, rtr, rm⟩
    rcases mkr with e | u
    · rfl
    · rcases pr with e | stdout
      · rfl
      · rcases tr with e | u2
        · rfl
        · rcases rtr with e | u3 <;> rfl
  · intro env src hp ha e
    unfold LocalDownloader.download
    simp only [if_neg hp, ha]
    repeat' first
      | split
      | dsimp only
    all_goals intro ht
    all_goals first
      | (cases ht; exact ⟨by simp, rfl⟩)
      | simp at ht
  · intro env src b
    rcases env with ⟨tmp, uuid, ar, cr, rm⟩
    by_cases hp : trimStr src.path = ""
    · simp [LocalDownloader.download, hp]
    · rcases ar with e | u
      · simp [LocalDownloader.download, hp]
      · rcases cr with e | u2 <;>
          simp [LocalDownloader.download, LocalDownloader.Env.targetDir, hp]

set_option maxHeartbeats 1600000 in
/-- C4 witness: concrete failing acquisitions for all four backends attempt
`rm` of their target directory and carry their backend's error code, and a
failing cleanup leaves each result unchanged. -/
theorem C4_witness :
    (FsEffect.rmDir "/tmp/js-report-card/u1"
        ∈ (GitDownloader.download gitEnvCloneFail gitSrcTokenOnly).trace
      ∧ Thrown.errCode (.derr "Git clone failed: Network error" "GIT_CLONE_FAILED"
          "git" (some (.err "Network error"))) = some "GIT_CLONE_FAILED")
  ∧ (GitDownloader.download { gitEnvCloneFail with rmOk := false } gitSrcTokenOnly).result
      = (GitDownloader.download gitEnvCloneFail gitSrcTokenOnly).result
  ∧ (FsEffect.rmDir "/tmp/js-report-card/u1"
        ∈ (ZipDownloader.download zipEnvFail zipSrcW).trace
      ∧ Thrown.errCode (.derr "Zip download/extraction failed: fetch failed"
          "ZIP_DOWNLOAD_FAILED" "zip" none) = some "ZIP_DOWNLOAD_FAILED")
  ∧ (ZipDownloader.download { zipEnvFail with rmOk := false } zipSrcW).result
      = (ZipDownloader.download zipEnvFail zipSrcW).result
  ∧ (FsEffect.rmDir "/tmp/js-report-card/u1"
        ∈ (NpmDownloader.download npmEnvFail npmSrcW).trace
      ∧ Thrown.errCode (.derr "NPM download failed: pack failed"
          "NPM_DOWNLOAD_FAILED" "npm" none) = some "NPM_DOWNLOAD_FAILED")
  ∧ (NpmDownloader.download { npmEnvFail with rmOk := false } npmSrcW).result
      = (NpmDownloader.download npmEnvFail npmSrcW).result
  ∧ (FsEffect.rmDir "/tmp/js-report-card/u1"
        ∈ (LocalDownloader.download localEnvFail localSrcW).trace
      ∧ Thrown.errCode (.derr "Local copy failed: Copy failed"
          "LOCAL_COPY_FAILED" "local" (some (.err "Copy failed"))) = some "LOCAL_COPY_FAILED")
  ∧ (LocalDownloader.download { localEnvFail with rmOk := false } localSrcW).result
      = (LocalDownloader.download localEnvFail localSrcW).result := by
  refine ⟨?_, ?_, ?_, ?_, ?_, ?_, ?_, ?_⟩
  · exact C4_cleanup_on_failed_acquisition.1 gitEnvCloneFail gitSrcTokenOnly
      (by decide) _ rfl
  · exact C4_cleanup_on_failed_acquisition.2.1 gitEnvCloneFail gitSrcTokenOnly false
  · exact C4_cleanup_on_failed_acquisition.2.2.1 zipEnvFail zipSrcW _ rfl
  · exact C4_cleanup_on_failed_acquisition.2.2.2.1 zipEnvFail zipSrcW false
  · exact C4_cleanup_on_failed_acquisition.2.2.2.2.1 npmEnvFail npmSrcW _ rfl
  · exact C4_cleanup_on_failed_acquisition.2.2.2.2.2.1 npmEnvFail npmSrcW false
  · exact C4_cleanup_on_failed_acquisition.2.2.2.2.2.2.1 localEnvFail localSrcW
      (by decide) rfl _ rfl
  · exact C4_cleanup_on_failed_acquisition.2.2.2.2.2.2.2 localEnvFail localSrcW false

/-- C5 counterexample: a backend that throws a plain `Error` (not a
`DownloaderError`) has its throw rethrown unchanged by the dispatcher — the
claim's required `DOWNLOAD_FAILED` wrapping does not happen, and a raw
platform exception crosses the dispatcher boundary. -/
theorem C5_counterexample :
    (ProjectDownloader.download [("t", dThrowsPlainError)]
        (some { type := some "git" })).result = .error (.err "ECONNRESET")
  ∧ Thrown.isDownloaderError (.err "ECONNRESET") = false
  ∧ Thrown.isErrorInstance (.err "ECONNRESET") = true :=
  ⟨rfl, rfl, rfl⟩

/-- C5 (amended): when the chosen backend throws, the dispatcher wraps the
thrown value into a `DOWNLOAD_FAILED` `DownloaderError` carrying it as the
cause only when the value is not an `Error` instance; `Error` instances —
whether or not they are typed `DownloaderError`s — propagate unchanged. -/
theorem C5_nonError_wrapping (pre rest : Registry) (id1 : String)
    (b1 : Downloader) (s : BaseSource) (t : Thrown)
    (hpre : ∀ p ∈ pre, p.2.canHandle s = false)
    (h1 : b1.canHandle s = true)
    (hty : strTruthy s.type = true)
    (hthrow : b1.download s = .error t) :
    (ProjectDownloader.download (pre ++ (id1, b1) :: rest) (some s)).result
      = (if t.isErrorInstance then .error t
         else .error (.derr "Download failed with non-Error object" "DOWNLOAD_FAILED"
                (s.type.getD "undefined") (some t))) := by
  have hrun : ProjectDownloader.download (pre ++ (id1, b1) :: rest) (some s)
      = dispatchLoop (pre ++ (id1, b1) :: rest) s := by
    simp [ProjectDownloader.download, hty]
  rw [hrun, dispatchLoop_first_match pre rest id1 b1 s hpre h1]
  simp only [dispatchCall, hthrow]
  split <;> simp_all

/-- C5 witness: a thrown non-Error string is wrapped into the generic
`DOWNLOAD_FAILED` error carrying it as the cause, while a thrown plain
`Error` propagates unchanged. -/
theorem C5_witness :
    (ProjectDownloader.download [("t", dThrowsString)]
        (some { type := some "git" })).result
      = .error (.derr "Download failed with non-Error object" "DOWNLOAD_FAILED"
          "git" (some (.nonErr "string error")))
  ∧ (ProjectDownloader.download [("u", dThrowsPlainError)]
        (some { type := some "git" })).result = .error (.err "ECONNRESET") := by
  constructor
  · have h := C5_nonError_wrapping [] [] "t" dThrowsString { type := some "git" }
      (.nonErr "string error") (fun p hp => absurd hp (List.not_mem_nil p)) rfl rfl rfl
    simpa using h
  · have h := C5_nonError_wrapping [] [] "u" dThrowsPlainError { type := some "git" }
      (.err "ECONNRESET") (fun p hp => absurd hp (List.not_mem_nil p)) rfl rfl rfl
    simpa using h

/-- C6: on `https://example.com/repo.git`, a lone token T is embedded as the
URL username (clone URL `https://T@example.com/repo.git`) and a
username/token pair is embedded basic-auth-style (clone URL
`https://u:T@example.com/repo.git`) — shown on the clone effect actually
recorded by `download`, and directly on `addAuthToUrl`. -/
theorem C6_clone_url_credential_embedding :
    (GitDownloader.download {} gitSrcTokenOnly).trace
      = [.gitClone "https://T@example.com/repo.git" "/tmp/js-report-card/u1" 1]
  ∧ (GitDownloader.download {} gitSrcUserToken).trace
      = [.gitClone "https://u:T@example.com/repo.git" "/tmp/js-report-card/u1" 1]
  ∧ GitDownloader.addAuthToUrl "https://example.com/repo.git" { token := some "T" }
      = .ok "https://T@example.com/repo.git"
  ∧ GitDownloader.addAuthToUrl "https://example.com/repo.git"
      { username := some "u", token := some "T" }
      = .ok "https://u:T@example.com/repo.git" :=
  ⟨rfl, rfl, rfl, rfl⟩

/-- C7: credential embedding happens on a parsed copy of the URL: whatever
the outcome of the acquisition, the caller's descriptor (its `url` field
included) is exactly as it was before the call. -/
theorem C7_descriptor_unchanged (env : GitDownloader.Env)
    (source : GitProjectSource) (h : source.auth.isSome = true) :
    (GitDownloader.download env source).source = source := by
  unfold GitDownloader.download GitDownloader.catchBlock
  repeat' first
    | rfl
    | split
    | dsimp only

/-- C7 witness: the username/token descriptor is returned untouched. -/
theorem C7_witness :
    gitSrcUserToken.auth.isSome = true
  ∧ (GitDownloader.download {} gitSrcUserToken).source = gitSrcUserToken :=
  ⟨rfl, C7_descriptor_unchanged {} gitSrcUserToken rfl⟩

/-- C8 counterexample: `git://example.com/repo.git` uses neither a
secure-transport nor an SSH-style scheme, yet validation passes and the
download proceeds straight to the network clone (succeeding here) instead
of failing with `INVALID_SOURCE` before any I/O. -/
theorem C8_counterexample :
    specSecureOrSshScheme "git://example.com/repo.git" = false
  ∧ (GitDownloader.download {} { url := "git://example.com/repo.git" }).result
      = .ok ⟨"/tmp/js-report-card/u1", none⟩
  ∧ (GitDownloader.download {} { url := "git://example.com/repo.git" }).trace
      = [.gitClone "git://example.com/repo.git" "/tmp/js-report-card/u1" 1] := by
  refine ⟨by decide, rfl, rfl⟩

/-- C8 (amended): URL validation accepts exactly the parseable hierarchical
URLs whose scheme is `https`, `git` or `ssh` (so the insecure `git:` scheme
passes too); a descriptor failing validation is rejected with
`INVALID_SOURCE` before any effect (empty trace), and for a descriptor that
passes, any raised error carries `GIT_CLONE_FAILED`, never
`INVALID_SOURCE`. -/
theorem C8_scheme_validation (env : GitDownloader.Env) (source : GitProjectSource) :
    (GitDownloader.isValidGitUrl source.url = false →
      (GitDownloader.download env source).result
        = .error (.derr "Invalid Git URL" "INVALID_SOURCE" source.type none)
      ∧ (GitDownloader.download env source).trace = [])
  ∧ (∀ u, parseUrl source.url = some u →
      GitDownloader.isValidGitUrl source.url
        = (u.scheme = "https" || u.scheme = "git" || u.scheme = "ssh"))
  ∧ (parseUrl source.url = none → GitDownloader.isValidGitUrl source.url = false)
  ∧ (GitDownloader.isValidGitUrl source.url = true →
      ∀ t, (GitDownloader.download env source).result = .error t →
        t.errCode = some "GIT_CLONE_FAILED") := by
  refine ⟨?_, ?_, ?_, ?_⟩
  · intro h
    unfold GitDownloader.download
    simp [h]
  · intro u hu
    unfold GitDownloader.isValidGitUrl
    simp [hu]
  · intro hu
    unfold GitDownloader.isValidGitUrl
    simp [hu]
  · intro hvalid t
    unfold GitDownloader.download GitDownloader.catchBlock
    simp only [hvalid, not_true_eq_false, if_false, Bool.not_true]
    repeat' first
      | split
      | dsimp only
    all_goals intro ht
    all_goals first
      | (cases ht; rfl)
      | simp at ht

/-- C8 witness: `http://` is rejected with `INVALID_SOURCE` and no effects;
the scheme characterization holds at a parsed `http` URL and at the
unparseable `invalid-url`; a valid `https` URL whose clone fails raises
`GIT_CLONE_FAILED`, not `INVALID_SOURCE`. -/
theorem C8_witness :
    ((GitDownloader.download {} { url := "http://example.com/x.git" }).result
        = .error (.derr "Invalid Git URL" "INVALID_SOURCE" "git" none)
      ∧ (GitDownloader.download {} { url := "http://example.com/x.git" }).trace = [])
  ∧ GitDownloader.isValidGitUrl "http://example.com/x.git"
      = ("http" = "https" || "http" = "git" || "http" = "ssh")
  ∧ GitDownloader.isValidGitUrl "invalid-url" = false
  ∧ Thrown.errCode (.derr "Git clone failed: Network error" "GIT_CLONE_FAILED"
      "git" (some (.err "Network error"))) = some "GIT_CLONE_FAILED" := by
  refine ⟨?_, ?_, ?_, ?_⟩
  · exact (C8_scheme_validation {} { url := "http://example.com/x.git" }).1 (by decide)
  · exact (C8_scheme_validation {} { url := "http://example.com/x.git" }).2.1
      ⟨"http", "", "", "example.com", "", "/x.git"⟩ (by decide)
  · exact (C8_scheme_validation {} { url := "invalid-url" }).2.2.1 (by decide)
  · exact (C8_scheme_validation gitEnvCloneFail gitSrcTokenOnly).2.2.2 (by decide) _ rfl

/-- C9: while a valid (unexpired) entry sits under the context's
fingerprint, two `runAnalysis` calls that differ only in their configs both
return the stored results, invoke no analyzer, and produce identical result
sets — the enabled/disabled selection in `configs` is ignored on a hit. -/
theorem C9_cache_hit_ignores_configs (mgr : AnalyzerManager)
    (context : AnalysisContext) (now : Nat)
    (configs1 configs2 : List (String × AnalyzerConfig)) (c : Cache)
    (md : Metadata) (entry : CacheEntry)
    (hc : mgr.cache = some c) (hmd : contextMeta context = some md)
    (hget : MemoryCache.get c md.version = some entry)
    (hvalid : isCacheValid mgr.maxCacheAge now entry = true) :
    runAnalysis mgr context configs1 now = (⟨.ok entry.results, []⟩, some c)
  ∧ runAnalysis mgr context configs2 now = (⟨.ok entry.results, []⟩, some c)
  ∧ (runAnalysis mgr context configs1 now).1.result
      = (runAnalysis mgr context configs2 now).1.result
  ∧ (runAnalysis mgr context configs1 now).1.invoked = []
  ∧ (runAnalysis mgr context configs2 now).1.invoked = [] := by
  have h1 := runAnalysis_cache_hit mgr context configs1 now c md entry hc hmd hget hvalid
  have h2 := runAnalysis_cache_hit mgr context configs2 now c md entry hc hmd hget hvalid
  exact ⟨h1, h2, by rw [h1, h2], by rw [h1], by rw [h2]⟩

/-- C9 witness: on the fixture state at instant 600, the run with the
analyzer enabled and the run with it disabled both return the cached
results and invoke nothing. -/
theorem C9_witness :
    runAnalysis mgrW ctxW cfgEnabled 600 = (⟨.ok [cachedResult], []⟩, some cacheW)
  ∧ runAnalysis mgrW ctxW cfgDisabled 600 = (⟨.ok [cachedResult], []⟩, some cacheW)
  ∧ (runAnalysis mgrW ctxW cfgEnabled 600).1.result
      = (runAnalysis mgrW ctxW cfgDisabled 600).1.result
  ∧ (runAnalysis mgrW ctxW cfgEnabled 600).1.invoked = []
  ∧ (runAnalysis mgrW ctxW cfgDisabled 600).1.invoked = [] :=
  C9_cache_hit_ignores_configs mgrW ctxW 600 cfgEnabled cfgDisabled cacheW mdW entryW
    rfl rfl rfl (by decide)

/-- C10: `getCacheKey` on a version-less registry descriptor resolves the
latest version with `npm view` and writes it back into `source.version`
(mutating the caller's descriptor), so a later `getCacheKey` on the updated
descriptor issues no registry query and returns the same pinned key, and a
later `download` builds its package identifier from the pinned version;
only when the registry query throws is a timestamp-based key returned with
the descriptor untouched. -/
theorem C10_getCacheKey_pins_version (env : NpmDownloader.KeyEnv)
    (source : NpmProjectSource)
    (h : strTruthy source.version = false) :
    (∀ stdout, env.viewResult = .ok stdout →
        NpmDownloader.getCacheKey env source
          = ("npm:" ++ source.packageName ++ ":" ++ trimStr stdout,
             { source with version := some (trimStr stdout) },
             [.runCmd ("npm view " ++ source.packageName ++ " version")])
        ∧ (trimStr stdout ≠ "" →
            (∀ env2 : NpmDownloader.KeyEnv,
              NpmDownloader.getCacheKey env2 { source with version := some (trimStr stdout) }
                = ("npm:" ++ source.packageName ++ ":" ++ trimStr stdout,
                   { source with version := some (trimStr stdout) }, []))
            ∧ NpmDownloader.packageId { source with version := some (trimStr stdout) }
                = source.packageName ++ "@" ++ trimStr stdout))
  ∧ (∀ t, env.viewResult = .error t →
        NpmDownloader.getCacheKey env source
          = ("npm:" ++ source.packageName ++ ":" ++ toString env.now, source,
             [.runCmd ("npm view " ++ source.packageName ++ " version")])) := by
  constructor
  · intro stdout hview
    constructor
    · unfold NpmDownloader.getCacheKey
      simp [h, hview]
    · intro htrim
      constructor
      · intro env2
        unfold NpmDownloader.getCacheKey
        simp [strTruthy, htrim]
      · unfold NpmDownloader.packageId
        simp [strTruthy, htrim]
  · intro t hview
    unfold NpmDownloader.getCacheKey
    simp [h, hview]

/-- C10 witness: resolving `pkg` to `1.2.3` pins the descriptor so the next
key computation is query-free and `download` would fetch `pkg@1.2.3`; a
failing query yields the timestamp key and leaves the descriptor alone. -/
theorem C10_witness :
    NpmDownloader.getCacheKey { viewResult := .ok "1.2.3\n", now := 0 } npmSrcW
      = ("npm:pkg:1.2.3", { npmSrcW with version := some "1.2.3" },
         [.runCmd "npm view pkg version"])
  ∧ NpmDownloader.getCacheKey { viewResult := .error (.err "offline"), now := 99 }
        { npmSrcW with version := some "1.2.3" }
      = ("npm:pkg:1.2.3", { npmSrcW with version := some "1.2.3" }, [])
  ∧ NpmDownloader.packageId { npmSrcW with version := some "1.2.3" } = "pkg@1.2.3"
  ∧ NpmDownloader.getCacheKey { viewResult := .error (.err "offline"), now := 99 } npmSrcW
      = ("npm:pkg:99", npmSrcW, [.runCmd "npm view pkg version"]) := by
  have h := C10_getCacheKey_pins_version
    { viewResult := .ok "1.2.3\n", now := 0 } npmSrcW rfl
  have hok := h.1 "1.2.3\n" rfl
  have hpin := hok.2 (by decide)
  have herr := (C10_getCacheKey_pins_version
    { viewResult := .error (.err "offline"), now := 99 } npmSrcW rfl).2
    (.err "offline") rfl
  exact ⟨hok.1, hpin.1 { viewResult := .error (.err "offline"), now := 99 }, hpin.2, herr⟩

/-- The older revision of git-downloader.ts (embedded as
`GitDownloaderLegacy`) did mutate the caller's descriptor: with a
username/token pair it wrote `https://T@example.com/repo.git` (token as
username, the username dropped) back into `source.url`.  The package's own
test suite asserts the current behaviour instead. -/
theorem gitDownloaderLegacy_mutates_url :
    ((GitDownloaderLegacy.download {} gitSrcUserToken).source).url
      = "https://T@example.com/repo.git"
  ∧ gitSrcUserToken.url = "https://example.com/repo.git" :=
  ⟨rfl, rfl⟩

end JsReportCard
